import Mathlib

/-!
Verification of the ledger parsing, aggregation, simulation and reconciliation
engine of `src/main.py` (a Telegram trading-statistics bot).

The Python code is shallowly embedded: dictionaries become structures with
`Option` fields (a missing dictionary key is `none`), Python strings become
`List Char` (`Str`), Python floats become `ℚ` (the algorithms are modelled in
exact arithmetic; every numeric claim checked here has slack that dwarfs
double-precision rounding error), Python `datetime` values carry only their
calendar date (`PyDate`), and the one stateful entry point
(`update_stats_cache`) becomes a function returning the list of cache states
observable at each `await` suspension point of the Python coroutine.
-/

/-- Python strings are modelled as lists of characters. -/
abbrev Str := List Char

/-- Model of Python `str.lower` restricted to the alphabets that actually occur
in the keys and markers of `main.py`: ASCII letters and the Cyrillic block
`А`-`Я` / `Ё`. -/
def pyLowerChar (c : Char) : Char :=
  if 'A' ≤ c ∧ c ≤ 'Z' then Char.ofNat (c.toNat + 32)
  else if 'А' ≤ c ∧ c ≤ 'Я' then Char.ofNat (c.toNat + 32)
  else if c = 'Ё' then 'ё'
  else c

/-- Pointwise lowering, the model of Python `str.lower`. -/
def pyLower (s : Str) : Str := s.map pyLowerChar

/-- Whitespace as recognised by Python `str.strip` and `\s` (ASCII subset;
the ledger files at hand contain no exotic Unicode spaces). -/
def isPySpace (c : Char) : Bool :=
  c = ' ' ∨ c = '\t' ∨ c = '\n' ∨ c = '\r' ∨ c = '\x0b' ∨ c = '\x0c'

/-- Model of Python `str.strip()`. -/
def pyStrip (s : Str) : Str :=
  ((s.dropWhile isPySpace).reverse.dropWhile isPySpace).reverse

/-- Model of Python's substring test `needle in hay`. -/
def containsSub (hay needle : Str) : Bool :=
  if needle.isPrefixOf hay then true
  else
    match hay with
    | [] => false
    | _ :: t => containsSub t needle

/-- Numeric value of a digit string (used only on all-digit strings). -/
def digitsToNat (s : Str) : ℕ := s.foldl (fun n c => n * 10 + (c.toNat - 48)) 0

/-- Model of Python `float(s)` on the decimal forms that occur in a ledger:
optional surrounding whitespace, an optional sign, and digits with at most one
decimal point (`"12"`, `"-3.5"`, `".5"`, `"12."`).  Exponent notation,
`inf`/`nan` and underscore separators are accepted by CPython but are outside
the modelled subset; none of the claims depends on them.  `none` models
`float` raising `ValueError`. -/
def pyFloat? (s : Str) : Option ℚ :=
  let s := pyStrip s
  let core : Str → Option ℚ := fun u =>
    let intPart := u.takeWhile Char.isDigit
    let rest := u.dropWhile Char.isDigit
    match rest with
    | [] => if intPart = [] then none else some (digitsToNat intPart : ℚ)
    | '.' :: frac =>
        if frac.all Char.isDigit ∧ (intPart ≠ [] ∨ frac ≠ []) then
          some ((digitsToNat intPart : ℚ) + (digitsToNat frac : ℚ) / (10 ^ frac.length))
        else none
    | _ => none
  match s with
  | '+' :: t => core t
  | '-' :: t => (core t).map Neg.neg
  | t => core t

/-- The calendar date carried by a Python `datetime` produced with
`datetime.strptime(s, "%d.%m.%Y")` (the time part is always midnight here,
so it is dropped).  Comparison of `datetime` values is lexicographic in
(year, month, day). -/
structure PyDate where
  y : ℕ
  m : ℕ
  d : ℕ
deriving DecidableEq

/-- Strict lexicographic order on dates, matching `datetime.__lt__`. -/
def PyDate.lt (a b : PyDate) : Prop :=
  a.y < b.y ∨ (a.y = b.y ∧ (a.m < b.m ∨ (a.m = b.m ∧ a.d < b.d)))

instance (a b : PyDate) : Decidable (PyDate.lt a b) := by
  unfold PyDate.lt; infer_instance

/-- Gregorian leap-year rule, as implemented by Python's `datetime`. -/
def isLeap (y : ℕ) : Bool := (y % 4 = 0 ∧ y % 100 ≠ 0) ∨ y % 400 = 0

/-- Days in a month, as validated by the `datetime` constructor. -/
def daysInMonth (y m : ℕ) : ℕ :=
  if m = 2 then (if isLeap y then 29 else 28)
  else if m = 4 ∨ m = 6 ∨ m = 9 ∨ m = 11 then 30
  else 31

/-- Validity of a calendar date per the `datetime` constructor
(`MINYEAR = 1`, `MAXYEAR = 9999`). -/
def validDate (dt : PyDate) : Bool :=
  1 ≤ dt.y ∧ dt.y ≤ 9999 ∧ 1 ≤ dt.m ∧ dt.m ≤ 12 ∧ 1 ≤ dt.d ∧ dt.d ≤ daysInMonth dt.y dt.m

/-- Split a character list at every occurrence of `c` (like `str.split(c)`
for a single-character separator). -/
def splitOnChar (c : Char) : Str → List Str
  | [] => [[]]
  | a :: t =>
    let r := splitOnChar c t
    if a = c then [] :: r
    else
      match r with
      | [] => [[a]]
      | h :: t' => (a :: h) :: t'

/-- The POSIX two-digit-year pivot used by `strptime`'s `%y`:
`00`-`68` map into the 2000s, `69`-`99` into the 1900s. -/
def yyMap (yy : ℕ) : ℕ := if yy ≤ 68 then 2000 + yy else 1900 + yy

/-- Model of `datetime.strptime(s, "%d.%m.%Y")` (`fourDigitYear = true`) and
`datetime.strptime(s, "%d.%m.%y")` (`fourDigitYear = false`).  `_strptime`
matches day and month as one or two digits, `%Y` as exactly four digits and
`%y` as exactly two, requires the full string to match, and the `datetime`
constructor then validates the calendar date; `none` models `ValueError`. -/
def strptimeDMY (fourDigitYear : Bool) (s : Str) : Option PyDate :=
  match splitOnChar '.' s with
  | [ds, ms, ys] =>
    if ds ≠ [] ∧ ds.length ≤ 2 ∧ ds.all Char.isDigit ∧
       ms ≠ [] ∧ ms.length ≤ 2 ∧ ms.all Char.isDigit ∧
       (if fourDigitYear then ys.length = 4 else ys.length = 2) ∧ ys.all Char.isDigit then
      let d := digitsToNat ds
      let m := digitsToNat ms
      let y := if fourDigitYear then digitsToNat ys else yyMap (digitsToNat ys)
      if validDate ⟨y, m, d⟩ then some ⟨y, m, d⟩ else none
    else none
  | _ => none

/-- The date-format fallback of `_parse_stats_data_sync` (main.py:376-383):
try `"%d.%m.%Y"` first, then `"%d.%m.%y"`. -/
def dateParse (s : Str) : Option PyDate :=
  match strptimeDMY true s with
  | some d => some d
  | none => strptimeDMY false s

/-- A trade record: the model of the per-trade dictionary built by
`_parse_stats_data_sync` (main.py:344-386).  Every key that the engine ever
reads is a field; `none` models an absent key.  The Python key `type` is
spelled `typ`.  (The code also stores an unused entry under the key `None`
whenever a `key: value` line's key is not in its key map; no reader ever
looks at it, so it is not modelled.) -/
structure Trade where
  in_progress : Bool := false
  original_index : Option ℕ := none
  ticker : Option Str := none
  typ : Option Str := none
  pnl : Option Str := none
  entry : Option Str := none
  margin : Option Str := none
  exits : Option Str := none
  date : Option Str := none
  date_dt : Option PyDate := none
  pnl_value : Option ℚ := none
deriving DecidableEq

/-- `t.get('pnl_value', 0)`, the accessor every aggregate computation uses. -/
def Trade.pnlVal (t : Trade) : ℚ := t.pnl_value.getD 0

/-- `x.get('original_index', 0)`, the sort tie-break accessor. -/
def Trade.idx (t : Trade) : ℕ := t.original_index.getD 0

/-- `x['date_dt']` as used in sort keys; the callers filter to trades where
the key is present, so the default is never reached there. -/
def Trade.dateKey (t : Trade) : PyDate := t.date_dt.getD ⟨0, 0, 0⟩

/-- Decide whether `rest` begins with a nonempty whitespace run followed
immediately by `(long)` or `(short)`, returning the direction.  This is where
the regex `\s+\((long|short)\)` can match at a given position: backtracking
inside `\s+` cannot help, because `(` is not a whitespace character, so the
parenthesis must sit at the end of the maximal whitespace run. -/
def dirAt (rest : Str) : Option Str :=
  let ws := rest.takeWhile isPySpace
  let tail := rest.dropWhile isPySpace
  if ws = [] then none
  else if List.isPrefixOf "(long)".data tail then some "long".data
  else if List.isPrefixOf "(short)".data tail then some "short".data
  else none

/-- Scan for the lazy match of `re.match(r"(.+?)\s+\((long|short)\)", line)`:
the shortest nonempty prefix (the captured ticker) followed by whitespace and
a direction marker.  `acc` holds the reversed prefix consumed so far. -/
def titleAux : Str → Str → Option (Str × Str)
  | _, [] => none
  | acc, c :: cs =>
    if acc ≠ [] then
      match dirAt (c :: cs) with
      | some dir => some (acc.reverse, dir)
      | none => titleAux (c :: acc) cs
    else titleAux (c :: acc) cs

/-- Model of the trade-header match at main.py:351: on success, the captured
`(ticker, direction)` groups. -/
def titleMatch (line : Str) : Option (Str × Str) := titleAux [] line

/-- Split at the first occurrence of `c`, modelling `line.split(':', 1)`
guarded by `':' in line`; `none` when `c` does not occur. -/
def splitFirst (c : Char) (s : Str) : Option (Str × Str) :=
  let pre := s.takeWhile (· ≠ c)
  if pre.length = s.length then none else some (pre, s.drop (pre.length + 1))

/-- One `key: value` line of a trade block (main.py:358-366): the key is
lowercased and looked up in the fixed key map; a `фиксации` value containing
`в отработке` marks the trade as in progress.  Lines without `:` are
ignored, as are keys outside the map. -/
def tradeLine (t : Trade) (line : Str) : Trade :=
  match splitFirst ':' line with
  | none => t
  | some (k, v) =>
    let key := pyLower (pyStrip k)
    let value := pyStrip v
    let t :=
      if key = "фиксации".data ∧ containsSub (pyLower value) "в отработке".data then
        { t with in_progress := true }
      else t
    if key = "чистое движение".data then { t with pnl := some value }
    else if key = "entry".data then { t with entry := some value }
    else if key = "маржа".data then { t with margin := some value }
    else if key = "фиксации".data then { t with exits := some value }
    else if key = "дата".data then { t with date := some value }
    else t

/-- The numeric coercion at main.py:368-374: an in-progress trade gets
`pnl_value = 0.0`; otherwise, if a `pnl` text is present, every `%` character
is removed (`str.replace('%', '')`) and the result parsed as a float,
defaulting to `0.0` on failure; if no `pnl` text is present the key is left
unset. -/
def pnlCoerce (t : Trade) : Trade :=
  if t.in_progress then { t with pnl_value := some 0 }
  else
    match t.pnl with
    | some p => { t with pnl_value := some ((pyFloat? (p.filter (· ≠ '%'))).getD 0) }
    | none => t

/-- Parse one trade block (main.py:344-386).  `i` is the block's position in
the `re.split` output (`original_index`); the block is given as its raw lines.
`none` models the `continue` paths: a blank block, a first line that fails the
header regex, or a present date text that fails both date formats.  Note the
code only attempts date parsing when a `дата:` line was seen; a block with no
date line is kept, with no `date_dt` key. -/
def parseTradeBlock (i : ℕ) (block : List Str) : Option Trade :=
  let blines := (block.map pyStrip).filter (· ≠ ([] : Str))
  match blines with
  | [] => none
  | first :: rest =>
    match titleMatch first with
    | none => none
    | some (tk, dir) =>
      let t : Trade :=
        { in_progress := false, original_index := some i, ticker := some tk, typ := some dir }
      let t := rest.foldl tradeLine t
      let t := pnlCoerce t
      match t.date with
      | none => some t
      | some ds =>
        match dateParse ds with
        | some dt => some { t with date_dt := some dt }
        | none => none

/-- The trade-parsing loop of `_parse_stats_data_sync` over the list of
segments produced by the `re.split` at main.py:342 (blocks are enumerated, and
skipped blocks still consume an index). -/
def parseTradeBlocks (blocks : List (List Str)) : List Trade :=
  blocks.enum.filterMap fun p => parseTradeBlock p.1 p.2

/-- The sort key relation behind
`sorted(completed_trades, key=lambda x: (x['date_dt'], -x.get('original_index', 0)))`
(the identical line at main.py:403, main.py:470 and main.py:496): ascending in
`date_dt`, and for equal dates descending in `original_index`. -/
def chronoLe (a b : Trade) : Prop :=
  PyDate.lt a.dateKey b.dateKey ∨ (a.dateKey = b.dateKey ∧ b.idx ≤ a.idx)

instance (a b : Trade) : Decidable (chronoLe a b) := by
  unfold chronoLe; infer_instance

/-- Componentwise description of equality of dates. -/
theorem PyDate.eq_iff {a b : PyDate} : a = b ↔ a.y = b.y ∧ a.m = b.m ∧ a.d = b.d := by
  cases a; cases b; simp [PyDate.mk.injEq]

/-- Date comparison is trichotomous. -/
theorem PyDate.lt_trichotomy (p q : PyDate) : PyDate.lt p q ∨ p = q ∨ PyDate.lt q p := by
  cases p; cases q
  simp only [PyDate.lt, PyDate.mk.injEq]
  omega

/-- Date comparison is transitive. -/
theorem PyDate.lt_trans {p q r : PyDate} (h1 : PyDate.lt p q) (h2 : PyDate.lt q r) :
    PyDate.lt p r := by
  cases p; cases q; cases r
  simp only [PyDate.lt] at *
  omega

instance : IsTotal Trade chronoLe := by
  constructor
  intro a b
  rcases PyDate.lt_trichotomy a.dateKey b.dateKey with h | h | h
  · exact Or.inl (Or.inl h)
  · rcases Nat.le_total b.idx a.idx with hi | hi
    · exact Or.inl (Or.inr ⟨h, hi⟩)
    · exact Or.inr (Or.inr ⟨h.symm, hi⟩)
  · exact Or.inr (Or.inl h)

instance : IsTrans Trade chronoLe := by
  constructor
  intro a b c hab hbc
  rcases hab with h1 | ⟨e1, i1⟩
  · rcases hbc with h2 | ⟨e2, _⟩
    · exact Or.inl (PyDate.lt_trans h1 h2)
    · exact Or.inl (e2 ▸ h1)
  · rcases hbc with h2 | ⟨e2, i2⟩
    · exact Or.inl (e1 ▸ h2)
    · exact Or.inr ⟨e1.trans e2, Nat.le_trans i2 i1⟩

/-- The completed-trade filter
`[t for t in trades if not t.get('in_progress') and 'date_dt' in t]`, shared
verbatim by `_calculate_streaks_sync` (main.py:402), `plot_pnl_chart`
(main.py:467) and `calculate_simulation` (main.py:494). -/
def completedTrades (trades : List Trade) : List Trade :=
  trades.filter fun t => !t.in_progress && t.date_dt.isSome

/-- The chronologically sorted completed trades.  `sorted` is a stable sort by
the key tuple `(date_dt, -original_index)`; insertion sort with the total
preorder `chronoLe` is stable in the same sense and therefore produces the
same list. -/
def chronoTrades (trades : List Trade) : List Trade :=
  (completedTrades trades).insertionSort chronoLe

/-- One iteration of the streak loop (main.py:405-422).  The state is
(current win/loss/breakeven streaks, running maxima). -/
def streakStep (s : (ℕ × ℕ × ℕ) × (ℕ × ℕ × ℕ)) (t : Trade) : (ℕ × ℕ × ℕ) × (ℕ × ℕ × ℕ) :=
  let pnl := t.pnlVal
  let cur :=
    if 0 < pnl then (s.1.1 + 1, 0, 0)
    else if pnl < 0 then (0, s.1.2.1 + 1, 0)
    else (0, 0, s.1.2.2 + 1)
  (cur, (max s.2.1 cur.1, max s.2.2.1 cur.2.1, max s.2.2.2 cur.2.2))

/-- `_calculate_streaks_sync` (main.py:396-424): longest win, loss and
breakeven streaks over the chronologically sorted completed trades. -/
def calculateStreaks (trades : List Trade) : ℕ × ℕ × ℕ :=
  if trades = [] then (0, 0, 0)
  else ((chronoTrades trades).foldl streakStep ((0, 0, 0), (0, 0, 0))).2

/-- One cell of `df['pnl_value'].cumsum()`: `none` models a pandas `NaN`
cell (a completed trade whose dictionary lacks `pnl_value`); `cumsum` skips
`NaN` cells but leaves them `NaN` in the output. -/
def cumStep (acc : ℚ × List (Option ℚ)) (t : Trade) : ℚ × List (Option ℚ) :=
  match t.pnl_value with
  | some v => (acc.1 + v, acc.2 ++ [some (acc.1 + v)])
  | none => (acc.1, acc.2 ++ [none])

/-- The cumulative-PnL series computed by `plot_pnl_chart` (main.py:465-474)
over the chronologically sorted completed trades.  The outer `none` models
the `return None, None` paths (no completed trades, or no `pnl_value` column
at all). -/
def plotPnlChartData (trades : List Trade) : Option (List (Option ℚ)) :=
  let ct := completedTrades trades
  if ct = [] then none
  else
    let chrono := ct.insertionSort chronoLe
    if chrono.any (fun t => t.pnl_value.isSome) then
      some ((chrono.foldl cumStep ((0 : ℚ), ([] : List (Option ℚ)))).2)
    else none

/-- Python `min` of a nonempty list (the lists it is applied to here always
are; the empty case is arbitrary). -/
def pyListMin : List ℚ → ℚ
  | [] => 0
  | h :: t => t.foldl min h

/-- Python `max` of a nonempty list. -/
def pyListMax : List ℚ → ℚ
  | [] => 0
  | h :: t => t.foldl max h

/-- The result dictionary of `calculate_simulation` (main.py:506). -/
structure SimResult where
  min_percent : ℚ
  max_percent : ℚ
  final_percent : ℚ
  final_balance : ℚ
  history : List ℚ
deriving DecidableEq

/-- One loop iteration of `calculate_simulation` (main.py:498-505); the state
is (current_balance, balance_history). -/
def simStep (simType : String) (initial_balance risk_percent leverage : ℚ)
    (st : ℚ × List ℚ) (t : Trade) : ℚ × List ℚ :=
  let pnl_percent := t.pnlVal
  let trade_capital :=
    if simType = "compound" then st.1 * (risk_percent / 100)
    else initial_balance * (risk_percent / 100)
  let position_size := trade_capital * leverage
  let profit_or_loss := position_size * (pnl_percent / 100)
  let current_balance := st.1 + profit_or_loss
  let growth_percent :=
    if 0 < initial_balance then (current_balance / initial_balance - 1) * 100 else 0
  (current_balance, st.2 ++ [growth_percent])

/-- `calculate_simulation` (main.py:490-507): project the balance over the
chronologically sorted completed trades, starting from a history seeded with
`[0.0]`. -/
def calculateSimulation (trades : List Trade) (simType : String)
    (initial_balance risk_percent leverage : ℚ) : SimResult :=
  let r := (chronoTrades trades).foldl
    (simStep simType initial_balance risk_percent leverage) (initial_balance, [0])
  { min_percent := pyListMin r.2
    max_percent := pyListMax r.2
    final_percent := r.2.getLastD 0
    final_balance := r.1
    history := r.2 }

/-- The nine summary-header fields extracted by the summary regex of
`_parse_stats_data_sync` (main.py:325-339), all as raw text. -/
structure SummaryRec where
  total_pnl : Str
  winrate : Str
  total_deals : Str
  successful : Str
  losing : Str
  breakeven : Str
  in_progress : Str
  start_date : Str
  last_update : Str
deriving DecidableEq

/-- The summary half of a parse result: `none` models the empty dictionary
(`{}`), which is what the parser returns when the summary regex does not
match or the document is malformed. -/
abbrev Summary := Option SummaryRec

/-- The modelled fields of the process-wide `STATS_CACHE` dictionary
(initialised to `{}` at main.py:77).  `none` models an absent key.  The chart
entries (`pnl_chart_*`, `summary_chart_png`, `sim_*_chart_*`) hold rendered
plotly artifacts; they are not modelled, and none of the update steps for them
touches the fields below. -/
structure StatsCache where
  summary : Option Summary := none
  trades : Option (List Trade) := none
  streaks : Option (ℕ × ℕ × ℕ) := none
  sim_compound_results : Option SimResult := none
  sim_simple_results : Option SimResult := none
deriving DecidableEq

/-- `update_stats_cache` (main.py:525-554) as the sequence of cache states a
concurrent reader can observe, one entry per `await` suspension point of the
coroutine, given the parse result `p` of the freshly read ledger and the cache
state `c` at entry.  If parsing produced an empty summary and an empty trade
list the function logs an error and returns before writing anything.
Otherwise `summary` and `trades` are assigned in one synchronous step (no
`await` between main.py:532 and main.py:533), after which the coroutine
suspends to compute streaks, charts (not modelled; they change none of the
modelled fields) and the two simulations, writing each result as it arrives.
The final list entry is the state at return. -/
def updateStatsCacheStates (p : Summary × List Trade) (c : StatsCache) : List StatsCache :=
  if p.1 = none ∧ p.2 = [] then [c]
  else
    let c1 := { c with summary := some p.1, trades := some p.2 }
    let c2 := { c1 with streaks := some (calculateStreaks p.2) }
    let c3 := { c2 with sim_compound_results := some (calculateSimulation p.2 "compound" 1000 3 35) }
    let c4 := { c3 with sim_simple_results := some (calculateSimulation p.2 "simple" 1000 3 35) }
    [c, c1, c2, c3, c4]

/-- `update_stats_cache` as a function: the cache state at return together
with the value returned to the awaiting caller.  Both `return` statements of
the coroutine (the early abort at main.py:530 and falling off the end) return
Python `None`, modelled as `Unit.unit`. -/
def updateStatsCache (p : Summary × List Trade) (c : StatsCache) : StatsCache × Unit :=
  ((updateStatsCacheStates p c).getLastD c, ())

/-- `[t for t in trades if not t.get('in_progress')]` as used by
`cq_check_stats` (main.py:1764) and `auto_rewrite_stats_header`
(main.py:1820); unlike the chronological filter, it keeps trades without a
resolved date. -/
def completedNoProgress (trades : List Trade) : List Trade :=
  trades.filter fun t => !t.in_progress

/-- `successful = sum(1 for t in completed_trades if t.get('pnl_value', 0) > 0)`. -/
def countSuccessful (trades : List Trade) : ℕ :=
  (completedNoProgress trades).countP fun t => decide (0 < t.pnlVal)

/-- `losing = sum(1 for t in completed_trades if t.get('pnl_value', 0) < 0)`. -/
def countLosing (trades : List Trade) : ℕ :=
  (completedNoProgress trades).countP fun t => decide (t.pnlVal < 0)

/-- `breakeven = len(completed_trades) - successful - losing`. -/
def countBreakeven (trades : List Trade) : ℕ :=
  (completedNoProgress trades).length - countSuccessful trades - countLosing trades

/-- `total_deals = len(trades)`. -/
def totalDeals (trades : List Trade) : ℕ := trades.length

/-- `in_progress_trades_count = len(trades) - len(completed_trades)`. -/
def inProgressCount (trades : List Trade) : ℕ :=
  trades.length - (completedNoProgress trades).length

/-- `winrate = successful / (successful + losing) * 100` guarded by a zero
denominator check (main.py:1771 and main.py:1827). -/
def winrateOf (trades : List Trade) : ℚ :=
  if 0 < countSuccessful trades + countLosing trades then
    (countSuccessful trades : ℚ) / ((countSuccessful trades : ℚ) + (countLosing trades : ℚ)) * 100
  else 0

/-- `total_pnl = sum(t.get('pnl_value', 0) for t in completed_trades)`. -/
def totalPnlOf (trades : List Trade) : ℚ :=
  ((completedNoProgress trades).map Trade.pnlVal).sum

/-- Python `max(a, b)` on dates (ties keep the first argument; date equality
makes the choice immaterial). -/
def pyMaxDate (a b : PyDate) : PyDate := if PyDate.lt a b then b else a

/-- `max(t['date_dt'] for t in trades if 'date_dt' in t)` guarded by
`any(t.get('date_dt') for t in trades)` (main.py:1773 and main.py:1829):
the latest resolved trade date, `none` when no trade has one. -/
def lastTradeDate (trades : List Trade) : Option PyDate :=
  match trades.filterMap Trade.date_dt with
  | [] => none
  | h :: t => some (t.foldl pyMaxDate h)

/-- Rounding to the nearest hundredth.  `f"{x:.2f}"` formats with two decimal
digits and the checker re-reads that text with `float(...)`, so the composite
of formatting and re-parsing is rounding to a multiple of 1/100 (CPython
breaks exact ties to even; exact ties cannot survive the float
representation, so `round` is an adequate model). -/
def roundCent (x : ℚ) : ℚ := (round (100 * x) : ℤ) / 100

/-- The header block written by `auto_rewrite_stats_header` (main.py:1831-1842)
between the two separator markers, with each written text field modelled by
the value the checker's re-parse recovers from it: the two percentage texts
`f"{...:.2f}%"` re-read through `float(s.replace('%',''))` give the rounded
rationals, the count texts re-read through `int(...)` give the counts, and
`last_trade_date.strftime('%d.%m.%y')` gives the day, month and two-digit
year. -/
structure WrittenHeader where
  total_pnl : ℚ
  winrate : ℚ
  total_deals : ℕ
  successful : ℕ
  losing : ℕ
  breakeven : ℕ
  in_progress : ℕ
  start_date : Str
  last_update_dd : ℕ
  last_update_mm : ℕ
  last_update_yy : ℕ
deriving DecidableEq

/-- `auto_rewrite_stats_header` (main.py:1815-1858): recompute every summary
field from the trades and rewrite the text between the two separator markers
(the `re.sub` at main.py:1849-1855 touches nothing outside them, so the
trades block re-parses unchanged).  `now` models `datetime.now()`, used only
when no trade has a resolved date.  The `if not trades` guard at main.py:1817
aborts without rewriting (`none`). -/
def autoRewriteStatsHeader (now : PyDate) (summary : Summary) (trades : List Trade) :
    Option WrittenHeader :=
  if trades = [] then none
  else
    let last := (lastTradeDate trades).getD now
    some
      { total_pnl := roundCent (totalPnlOf trades)
        winrate := roundCent (winrateOf trades)
        total_deals := totalDeals trades
        successful := countSuccessful trades
        losing := countLosing trades
        breakeven := countBreakeven trades
        in_progress := inProgressCount trades
        start_date := ((summary.map SummaryRec.start_date).getD "N/A".data)
        last_update_dd := last.d
        last_update_mm := last.m
        last_update_yy := last.y % 100 }

/-- `datetime.strptime(file_update_date_str, "%d.%m.%y")` applied to the
`dd.mm.yy` text written by `strftime('%d.%m.%y')`: the day and month values
round-trip (they are at most two digits for any date a `datetime` can hold),
and the two-digit year goes through the POSIX pivot; the `datetime`
constructor validates the result.  `none` models `ValueError`. -/
def strptimeOfWrittenDate (dd mm yy : ℕ) : Option PyDate :=
  let dt : PyDate := ⟨yyMap yy, mm, dd⟩
  if validDate dt then some dt else none

/-- The summary fields `cq_check_stats` can flag as discrepant, in the order
the code checks them (main.py:1777-1796). -/
inductive StatField
  | totalPnl
  | winrate
  | totalDeals
  | successful
  | losing
  | breakeven
  | inProgress
  | lastUpdate
deriving DecidableEq

/-- `cq_check_stats` (main.py:1754-1813) run against a header previously
written by `auto_rewrite_stats_header`: recompute every aggregate from the
(re-parsed, unchanged) trades and compare.  Percentage fields are discrepant
when they differ by more than 0.01, counts by exact inequality; the
last-update date is compared only when the header has a date text (a written
header always does) and some trade has a resolved date.  The outer `none`
models the two non-comparison exits: the `if not trades` early return and the
`except (ValueError, ...)` path taken when `strptime` rejects the header's
date text. -/
def cqCheckStats (h : WrittenHeader) (trades : List Trade) : Option (List StatField) :=
  if trades = [] then none
  else
    let base : List StatField :=
      (if ¬ |h.total_pnl - totalPnlOf trades| ≤ 1 / 100 then [StatField.totalPnl] else []) ++
      (if ¬ |h.winrate - winrateOf trades| ≤ 1 / 100 then [StatField.winrate] else []) ++
      (if h.total_deals ≠ totalDeals trades then [StatField.totalDeals] else []) ++
      (if h.successful ≠ countSuccessful trades then [StatField.successful] else []) ++
      (if h.losing ≠ countLosing trades then [StatField.losing] else []) ++
      (if h.breakeven ≠ countBreakeven trades then [StatField.breakeven] else []) ++
      (if h.in_progress ≠ inProgressCount trades then [StatField.inProgress] else [])
    match lastTradeDate trades with
    | none => some base
    | some ltd =>
      match strptimeOfWrittenDate h.last_update_dd h.last_update_mm h.last_update_yy with
      | none => none
      | some fd => some (base ++ (if fd ≠ ltd then [StatField.lastUpdate] else []))

/-- Per-leg relative price movement in percent, from the net-movement sum at
main.py:1693: `(p - entry)/entry*100` for a long, `(entry - p)/entry*100`
otherwise. -/
def legMovement (entry : ℚ) (direction : String) (p : ℚ) : ℚ :=
  if direction = "long" then (p - entry) / entry * 100 else (entry - p) / entry * 100

/-- The core of `process_calc_exits` (main.py:1682-1694), after the exit legs
have been extracted by the regex and converted to numbers: each leg is a
`(price, percent)` pair.  `none` models the two rejection paths that answer
with an error and produce no trade text: no recognisable legs, and a
percentage sum above 100.1.  A sum below 99.9 appends a synthetic leg at the
entry price for the remaining percentage.  On success the result is the legs
actually summed and the final pnl `net_movement * margin`. -/
def processCalcExits (entry : ℚ) (direction : String) (margin : ℚ)
    (exits : List (ℚ × ℚ)) : Option (List (ℚ × ℚ) × ℚ) :=
  if exits = [] then none
  else
    let total_percent := (exits.map Prod.snd).sum
    if 1001 / 10 < total_percent then none
    else
      let exits2 :=
        if total_percent < 999 / 10 then exits ++ [(entry, 100 - total_percent)] else exits
      let net_movement :=
        (exits2.map fun pr => legMovement entry direction pr.1 * (pr.2 / 100)).sum
      some (exits2, net_movement * margin)

/-! ## Specification-side definitions

The following definitions transcribe the wording of the specification (not
the code); the theorems below compare them with the embedded code. -/

/-- Streak recurrence as the specification words it: one pass, three
counters, each pnl sign increments its own bucket and resets the other two,
and the result is the running maximum of each counter. -/
def specStreakStep (s : (ℕ × ℕ × ℕ) × (ℕ × ℕ × ℕ)) (pnl : ℚ) : (ℕ × ℕ × ℕ) × (ℕ × ℕ × ℕ) :=
  let cur :=
    if 0 < pnl then (s.1.1 + 1, 0, 0)
    else if pnl < 0 then (0, s.1.2.1 + 1, 0)
    else (0, 0, s.1.2.2 + 1)
  (cur, (max s.2.1 cur.1, max s.2.2.1 cur.2.1, max s.2.2.2 cur.2.2))

/-- The streak triple the specification prescribes for a list of pnl values
in processing order. -/
def specStreaks (pnls : List ℚ) : ℕ × ℕ × ℕ :=
  (pnls.foldl specStreakStep ((0, 0, 0), (0, 0, 0))).2

/-- The balance trajectory as the specification words it:
`trade_capital = current_balance * risk/100` (compound) or
`initial_balance * risk/100` (simple), `position_size = trade_capital *
leverage`, `profit_or_loss = position_size * pnl/100`, and the new balance is
`current_balance + profit_or_loss`; one entry per processed trade. -/
def specBalances (simType : String) (initial_balance risk_percent leverage : ℚ) :
    ℚ → List Trade → List ℚ
  | _, [] => []
  | b, t :: ts =>
    let trade_capital :=
      if simType = "compound" then b * (risk_percent / 100)
      else initial_balance * (risk_percent / 100)
    let position_size := trade_capital * leverage
    let profit_or_loss := position_size * (t.pnlVal / 100)
    let b' := b + profit_or_loss
    b' :: specBalances simType initial_balance risk_percent leverage b' ts

/-- Stripping one trailing `%`, as the specification (but not the code, which
removes every `%`) words the pnl coercion. -/
def stripTrailingPercent (s : Str) : Str :=
  if s.getLast? = some '%' then s.dropLast else s

/-! ## Concrete fixtures used by witnesses and counterexamples -/

/-- A minimal completed trade with the given index, January-2025 day and pnl
value, as the parser would produce for a dated, completed segment. -/
def exTrade (i : ℕ) (day : ℕ) (q : ℚ) : Trade :=
  { in_progress := false, original_index := some i, date_dt := some ⟨2025, 1, day⟩,
    pnl_value := some q }

/-- Seven completed trades whose pnl signs in chronological order are
`[+, +, -, 0, +, +, +]` (the sequence named by the specification's P3). -/
def exStreakTrades : List Trade :=
  [exTrade 0 1 5, exTrade 1 2 3, exTrade 2 3 (-2), exTrade 3 4 0, exTrade 4 5 1,
   exTrade 5 6 2, exTrade 6 7 4]

/-- C7.  The streak computation is the specified single pass with three
reset-on-other-bucket counters and running maxima over the chronologically
sorted completed trades, and on the sign sequence `[+,+,-,0,+,+,+]` it
returns `(win, loss, breakeven) = (3, 1, 1)`. -/
theorem streaks_single_pass (trades : List Trade) :
    calculateStreaks trades = specStreaks ((chronoTrades trades).map Trade.pnlVal) ∧
    calculateStreaks exStreakTrades = (3, 1, 1) := by
  constructor
  · unfold calculateStreaks specStreaks
    rw [List.foldl_map]
    by_cases h : trades = []
    · subst h; rfl
    · rw [if_neg h]; rfl
  · decide

/-- C9.  When the entered exit-leg percentages sum to more than 100.1, the
manual trade-construction step rejects the entry: no exit list and no pnl are
produced (and in particular nothing is scaled). -/
theorem calc_exits_rejects_oversized_sum (entry : ℚ) (direction : String) (margin : ℚ)
    (exits : List (ℚ × ℚ)) (h : 1001 / 10 < (exits.map Prod.snd).sum) :
    processCalcExits entry direction margin exits = none := by
  rcases exits with _ | ⟨e, es⟩
  · simp [processCalcExits]
  · have h' : 1001 / 10 < e.2 + (es.map Prod.snd).sum := by simpa using h
    simp [processCalcExits, h']

/-- Witness for C9 at a concrete input: legs `110 (60%)` and `120 (50%)` sum
to 110 % and are rejected. -/
theorem calc_exits_rejects_oversized_sum_witness :
    (1001 / 10 : ℚ) < (([((110 : ℚ), (60 : ℚ)), (120, 50)].map Prod.snd).sum) ∧
    processCalcExits 100 "long" 1 [(110, 60), (120, 50)] = none :=
  ⟨by norm_num, calc_exits_rejects_oversized_sum 100 "long" 1 _ (by norm_num)⟩

/-- C10.  When the entered exit-leg percentages sum to less than 99.9, a
synthetic leg at the entry price covering the remaining `100 - sum` percent
is appended before the net movement is computed, and that leg contributes
exactly zero movement: the resulting pnl equals the margin times the net
movement of the entered legs alone. -/
theorem calc_exits_pads_small_sum (entry : ℚ) (direction : String) (margin : ℚ)
    (exits : List (ℚ × ℚ)) (he : 0 < entry) (hne : exits ≠ [])
    (hs : (exits.map Prod.snd).sum < 999 / 10) :
    processCalcExits entry direction margin exits =
      some (exits ++ [(entry, 100 - (exits.map Prod.snd).sum)],
        ((exits.map fun pr => legMovement entry direction pr.1 * (pr.2 / 100)).sum) * margin) := by
  have hlt : ¬ (1001 / 10 : ℚ) < (exits.map Prod.snd).sum := by linarith
  simp only [processCalcExits, if_neg hne, if_neg hlt, if_pos hs]
  have hzero : legMovement entry direction entry = 0 := by
    unfold legMovement
    split <;> simp
  simp [hzero]

/-- Witness for C10 at a concrete input: one leg `105 (50%)` of a long from
100 sums to 50 < 99.9, so a synthetic leg `(100, 50)` is appended and the pnl
is the margin times the entered leg's movement alone. -/
theorem calc_exits_pads_small_sum_witness :
    (0 : ℚ) < 100 ∧ ([((105 : ℚ), (50 : ℚ))] ≠ []) ∧
      (([((105 : ℚ), (50 : ℚ))].map Prod.snd).sum < 999 / 10) ∧
    processCalcExits 100 "long" 2 [(105, 50)] =
      some ([(105, 50)] ++ [(100, 100 - ([((105 : ℚ), (50 : ℚ))].map Prod.snd).sum)],
        (([((105 : ℚ), (50 : ℚ))].map fun pr =>
          legMovement 100 "long" pr.1 * (pr.2 / 100)).sum) * 2) :=
  ⟨by norm_num, by simp, by norm_num,
    calc_exits_pads_small_sum 100 "long" 2 [(105, 50)] (by norm_num) (by simp) (by norm_num)⟩

/-- The simulation loop unrolled against the specification's balance
recurrence: folding `simStep` over any trade list from state `(b, hist)`
yields the last spec balance and appends one growth entry per trade. -/
theorem simStep_foldl_spec (simType : String) (init risk lev : ℚ) (ts : List Trade) :
    ∀ (b : ℚ) (hist : List ℚ),
      ts.foldl (simStep simType init risk lev) (b, hist) =
        ((specBalances simType init risk lev b ts).getLastD b,
          hist ++ (specBalances simType init risk lev b ts).map
            (fun x => if 0 < init then (x / init - 1) * 100 else 0)) := by
  induction ts with
  | nil => intro b hist; simp [specBalances]
  | cons t ts ih =>
    intro b hist
    rw [List.foldl_cons]
    show List.foldl _ (simStep simType init risk lev (b, hist) t) ts = _
    rw [show simStep simType init risk lev (b, hist) t =
      (b + (if simType = "compound" then b * (risk / 100) else init * (risk / 100)) * lev *
        (t.pnlVal / 100),
       hist ++ [if 0 < init then
        ((b + (if simType = "compound" then b * (risk / 100) else init * (risk / 100)) * lev *
          (t.pnlVal / 100)) / init - 1) * 100 else 0]) from rfl]
    rw [ih]
    show _ = ((specBalances simType init risk lev b (t :: ts)).getLastD b, _)
    rw [show specBalances simType init risk lev b (t :: ts) =
      (b + (if simType = "compound" then b * (risk / 100) else init * (risk / 100)) * lev *
        (t.pnlVal / 100)) ::
      specBalances simType init risk lev
        (b + (if simType = "compound" then b * (risk / 100) else init * (risk / 100)) * lev *
          (t.pnlVal / 100)) ts from rfl]
    rw [List.getLastD_cons, List.map_cons, List.append_cons]
    simp

/-- Each processed trade contributes exactly one spec balance. -/
theorem specBalances_length (simType : String) (init risk lev : ℚ) :
    ∀ (b : ℚ) (ts : List Trade),
      (specBalances simType init risk lev b ts).length = ts.length
  | _, [] => rfl
  | b, t :: ts => by
    rw [show specBalances simType init risk lev b (t :: ts) =
      _ :: specBalances simType init risk lev _ ts from rfl]
    simp [specBalances_length]

/-- C6.  Under the stated parameter preconditions the simulation follows the
specified recurrence: the history is the seed `0.0` followed by
`(balance/initial_balance - 1) * 100` for each successive balance of the
spec recurrence (compound mode risks a fraction of the current balance,
simple mode of the initial balance), the final balance is the last balance of
the recurrence, and with no completed trades the history is exactly `[0]`
with zero min/max/final percent and an unchanged balance. -/
theorem simulation_recurrence (trades : List Trade) (simType : String)
    (initial_balance risk_percent leverage : ℚ)
    (h1 : 0 < initial_balance) (h2 : 0 < risk_percent) (h3 : risk_percent ≤ 100)
    (h4 : 0 < leverage) :
    (calculateSimulation trades simType initial_balance risk_percent leverage).history =
      0 :: (specBalances simType initial_balance risk_percent leverage initial_balance
        (chronoTrades trades)).map (fun x => (x / initial_balance - 1) * 100) ∧
    (calculateSimulation trades simType initial_balance risk_percent leverage).final_balance =
      (specBalances simType initial_balance risk_percent leverage initial_balance
        (chronoTrades trades)).getLastD initial_balance ∧
    (completedTrades trades = [] →
      (calculateSimulation trades simType initial_balance risk_percent leverage).history = [0] ∧
      (calculateSimulation trades simType initial_balance risk_percent leverage).min_percent = 0 ∧
      (calculateSimulation trades simType initial_balance risk_percent leverage).max_percent = 0 ∧
      (calculateSimulation trades simType initial_balance risk_percent leverage).final_percent
        = 0 ∧
      (calculateSimulation trades simType initial_balance risk_percent leverage).final_balance
        = initial_balance) := by
  have key := simStep_foldl_spec simType initial_balance risk_percent leverage
    (chronoTrades trades) initial_balance [0]
  have hif : (fun x : ℚ => if 0 < initial_balance then (x / initial_balance - 1) * 100 else 0)
      = fun x : ℚ => (x / initial_balance - 1) * 100 := by
    funext x; rw [if_pos h1]
  rw [hif] at key
  refine ⟨?_, ?_, ?_⟩
  · unfold calculateSimulation
    rw [key]; rfl
  · unfold calculateSimulation
    rw [key]
  · intro hempty
    have hch : chronoTrades trades = [] := by
      unfold chronoTrades; rw [hempty]; rfl
    unfold calculateSimulation
    rw [hch]
    simp [pyListMin, pyListMax]

/-- Witness for C6 at a concrete input: one completed winning trade, simple
mode, balance 1000, risk 3 %, leverage 35. -/
theorem simulation_recurrence_witness :
    (0 : ℚ) < 1000 ∧ (0 : ℚ) < 3 ∧ (3 : ℚ) ≤ 100 ∧ (0 : ℚ) < 35 ∧
    (calculateSimulation [exTrade 0 1 5] "simple" 1000 3 35).history =
      0 :: (specBalances "simple" 1000 3 35 1000
        (chronoTrades [exTrade 0 1 5])).map (fun x => (x / 1000 - 1) * 100) :=
  ⟨by norm_num, by norm_num, by norm_num, by norm_num,
    (simulation_recurrence [exTrade 0 1 5] "simple" 1000 3 35
      (by norm_num) (by norm_num) (by norm_num) (by norm_num)).1⟩

/-- The cumulative-series fold appends exactly one cell per processed trade. -/
theorem cumStep_foldl_length (ts : List Trade) :
    ∀ (a : ℚ) (acc : List (Option ℚ)),
      ((ts.foldl cumStep (a, acc)).2).length = acc.length + ts.length := by
  induction ts with
  | nil => intro a acc; simp
  | cons t ts ih =>
    intro a acc
    rw [List.foldl_cons]
    rcases hp : t.pnl_value with _ | v
    · rw [show cumStep (a, acc) t = (a, acc ++ [none]) from by unfold cumStep; rw [hp]]
      rw [ih]; simp; omega
    · rw [show cumStep (a, acc) t = (a + v, acc ++ [some (a + v)]) from by
        unfold cumStep; rw [hp]]
      rw [ih]; simp; omega

/-- C5.  The processing order shared by streaks, the cumulative series and
the simulation: the chronologically sorted completed trades are a permutation
of the completed trades, pairwise ordered by ascending `date_dt` with ties on
equal dates broken by descending `original_index` (so among same-day trades
the one appearing later in the document comes first), and each of the three
consumers walks exactly that list (the streak fold runs over it, and both the
simulation history and the cumulative series carry one entry per element of
it, plus the simulation's seed). -/
theorem chrono_order_spec (trades : List Trade) :
    (chronoTrades trades).Perm (completedTrades trades) ∧
    (chronoTrades trades).Pairwise (fun a b =>
      PyDate.lt a.dateKey b.dateKey ∨ (a.dateKey = b.dateKey ∧ b.idx ≤ a.idx)) ∧
    (trades ≠ [] →
      calculateStreaks trades =
        ((chronoTrades trades).foldl streakStep ((0, 0, 0), (0, 0, 0))).2) ∧
    (∀ simType init risk lev,
      (calculateSimulation trades simType init risk lev).history.length =
        (chronoTrades trades).length + 1) ∧
    (∀ l, plotPnlChartData trades = some l → l.length = (chronoTrades trades).length) := by
  refine ⟨?_, ?_, ?_, ?_, ?_⟩
  · exact List.perm_insertionSort chronoLe (completedTrades trades)
  · exact List.sorted_insertionSort chronoLe (completedTrades trades)
  · intro h; unfold calculateStreaks; rw [if_neg h]
  · intro simType init risk lev
    unfold calculateSimulation
    rw [simStep_foldl_spec]
    simp [specBalances_length]
  · intro l hl
    unfold plotPnlChartData at hl
    by_cases hc : completedTrades trades = []
    · rw [if_pos hc] at hl; cases hl
    · rw [if_neg hc] at hl
      by_cases ha : ((completedTrades trades).insertionSort chronoLe).any
          (fun t => t.pnl_value.isSome)
      · rw [if_pos ha] at hl
        cases hl
        rw [cumStep_foldl_length]
        simp [chronoTrades]
      · rw [if_neg ha] at hl; cases hl

/-- Witness for C5 at a concrete input: two same-day trades; the one with the
larger `original_index` (later in the document) is processed first. -/
theorem chrono_order_spec_witness :
    chronoTrades [exTrade 0 1 5, exTrade 1 1 (-2)] =
      [exTrade 1 1 (-2), exTrade 0 1 5] ∧
    (chronoTrades [exTrade 0 1 5, exTrade 1 1 (-2)]).Pairwise (fun a b =>
      PyDate.lt a.dateKey b.dateKey ∨ (a.dateKey = b.dateKey ∧ b.idx ≤ a.idx)) ∧
    calculateStreaks [exTrade 0 1 5, exTrade 1 1 (-2)] =
      ((chronoTrades [exTrade 0 1 5, exTrade 1 1 (-2)]).foldl streakStep
        ((0, 0, 0), (0, 0, 0))).2 :=
  ⟨by decide,
    (chrono_order_spec [exTrade 0 1 5, exTrade 1 1 (-2)]).2.1,
    (chrono_order_spec [exTrade 0 1 5, exTrade 1 1 (-2)]).2.2.1 (by decide)⟩

/-- A `key: value` line never touches `date_dt`, `pnl_value`,
`original_index` or `ticker` (those are set only before or after the line
loop). -/
theorem tradeLine_fields (t : Trade) (line : Str) :
    (tradeLine t line).date_dt = t.date_dt ∧ (tradeLine t line).pnl_value = t.pnl_value ∧
    (tradeLine t line).original_index = t.original_index ∧
    (tradeLine t line).ticker = t.ticker := by
  unfold tradeLine
  rcases splitFirst ':' line with _ | ⟨k, v⟩
  · exact ⟨rfl, rfl, rfl, rfl⟩
  · dsimp only
    split_ifs <;> exact ⟨rfl, rfl, rfl, rfl⟩

/-- The whole line loop never touches `date_dt`, `pnl_value`,
`original_index` or `ticker`. -/
theorem foldl_tradeLine_fields (lines : List Str) : ∀ (t : Trade),
    (lines.foldl tradeLine t).date_dt = t.date_dt ∧
    (lines.foldl tradeLine t).pnl_value = t.pnl_value ∧
    (lines.foldl tradeLine t).original_index = t.original_index ∧
    (lines.foldl tradeLine t).ticker = t.ticker := by
  induction lines with
  | nil => intro t; exact ⟨rfl, rfl, rfl, rfl⟩
  | cons l ls ih =>
    intro t
    rw [List.foldl_cons]
    obtain ⟨d1, p1, o1, k1⟩ := ih (tradeLine t l)
    obtain ⟨d2, p2, o2, k2⟩ := tradeLine_fields t l
    exact ⟨d1.trans d2, p1.trans p2, o1.trans o2, k1.trans k2⟩


/-- `pnlCoerce` only writes `pnl_value`, and writes it exactly as
main.py:368-374 prescribes (leaving it untouched when the trade is completed
but has no `pnl` text). -/
theorem pnlCoerce_fields (t : Trade) :
    (pnlCoerce t).date = t.date ∧ (pnlCoerce t).date_dt = t.date_dt ∧
    (pnlCoerce t).in_progress = t.in_progress ∧ (pnlCoerce t).pnl = t.pnl ∧
    (pnlCoerce t).original_index = t.original_index ∧ (pnlCoerce t).ticker = t.ticker ∧
    (pnlCoerce t).pnl_value =
      (if t.in_progress then some 0
       else match t.pnl with
            | some p => some ((pyFloat? (p.filter (· ≠ '%'))).getD 0)
            | none => t.pnl_value) := by
  unfold pnlCoerce
  split_ifs with h
  · exact ⟨rfl, rfl, rfl, rfl, rfl, rfl, rfl⟩
  · rcases hp : t.pnl with _ | p
    · exact ⟨rfl, rfl, rfl, hp, rfl, rfl, rfl⟩
    · exact ⟨rfl, rfl, rfl, rfl, rfl, rfl, rfl⟩

/-- The coerced `pnl_value` of a trade whose `pnl_value` key was unset before
coercion (as after the line loop) satisfies the remove-every-percent
contract, stated in terms of the coerced trade's own fields. -/
theorem pnlCoerce_contract (t1 : Trade) (h0 : t1.pnl_value = none) :
    (pnlCoerce t1).pnl_value =
      (if (pnlCoerce t1).in_progress then some 0
       else (pnlCoerce t1).pnl.map fun s => (pyFloat? (s.filter (· ≠ '%'))).getD 0) := by
  obtain ⟨_, _, cip, cpn, _, _, cpv⟩ := pnlCoerce_fields t1
  rw [cpv, cip, cpn]
  split
  · rfl
  · rcases hp : t1.pnl with _ | p
    · exact h0
    · rfl

/-- Field contract of a successfully parsed trade block: the resolved date is
exactly the parse of the recorded date text (and exists exactly when a date
text was recorded), the numeric pnl follows the remove-every-percent
coercion, the index is the block's position, and a ticker is always
present. -/
theorem parseTradeBlock_spec (i : ℕ) (b : List Str) (t : Trade)
    (h : parseTradeBlock i b = some t) :
    t.date_dt = t.date.bind dateParse ∧ (t.date.isSome ↔ t.date_dt.isSome) ∧
    t.pnl_value =
      (if t.in_progress then some 0
       else t.pnl.map fun s => (pyFloat? (s.filter (· ≠ '%'))).getD 0) ∧
    t.original_index = some i ∧ t.ticker.isSome = true := by
  unfold parseTradeBlock at h
  dsimp only at h
  rcases hbl : (List.map pyStrip b).filter (fun x => decide (x ≠ [])) with _ | ⟨first, rest⟩
  · rw [hbl] at h; cases h
  rw [hbl] at h
  dsimp only at h
  rcases hti : titleMatch first with _ | ⟨tk, dir⟩
  · rw [hti] at h; cases h
  rw [hti] at h
  dsimp only at h
  obtain ⟨fd, fp, fo, fk⟩ := foldl_tradeLine_fields rest
    { in_progress := false, original_index := some i, ticker := some tk, typ := some dir }
  obtain ⟨cd, cdd, cip, cpn, co, ck, cpv⟩ := pnlCoerce_fields
    (List.foldl tradeLine
      { in_progress := false, original_index := some i, ticker := some tk, typ := some dir } rest)
  have hcontract := pnlCoerce_contract
    (List.foldl tradeLine
      { in_progress := false, original_index := some i, ticker := some tk, typ := some dir } rest)
    (fp.trans rfl)
  rcases hdate : (pnlCoerce (List.foldl tradeLine
      { in_progress := false, original_index := some i, ticker := some tk, typ := some dir }
      rest)).date with _ | ds
  · rw [hdate] at h
    dsimp only at h
    cases h
    refine ⟨?_, ?_, hcontract, ?_, ?_⟩
    · rw [hdate, cdd, fd]; rfl
    · rw [hdate, cdd, fd]; simp
    · rw [co, fo]
    · rw [ck, fk]; rfl
  · rw [hdate] at h
    dsimp only at h
    rcases hdp : dateParse ds with _ | dt
    · rw [hdp] at h; cases h
    · rw [hdp] at h
      dsimp only at h
      cases h
      dsimp only
      refine ⟨?_, ?_, hcontract, ?_, ?_⟩
      · dsimp only [Option.bind]; rw [hdp]
      · simp
      · rw [co, fo]
      · rw [ck, fk]; rfl

/-- C4 (amended).  A parsed trade's resolved date is exactly the date-format
parse of its recorded date text: a segment whose date text fails both
accepted formats is dropped (so a kept trade with a date line always has a
resolved date), but a segment with no date line at all is kept, with no
resolved date. -/
theorem parser_date_semantics (blocks : List (List Str)) :
    ∀ t ∈ parseTradeBlocks blocks,
      t.date_dt = t.date.bind dateParse ∧ (t.date.isSome ↔ t.date_dt.isSome) := by
  intro t ht
  unfold parseTradeBlocks at ht
  rcases List.mem_filterMap.mp ht with ⟨⟨i, blk⟩, _, hp⟩
  obtain ⟨h1, h2, _⟩ := parseTradeBlock_spec i blk t hp
  exact ⟨h1, h2⟩

/-- The single trade block used to refute C4 as stated: a valid header and a
pnl line, but no date line. -/
def c4Blocks : List (List Str) := [["PEPE (long)".data, "Чистое движение: 5%".data]]

/-- Counterexample to C4 as stated: parsing a document whose only trade
segment has no date line returns that trade (it is not dropped), and the
returned `TradeRecord` has no resolved calendar date. -/
theorem parser_date_semantics_counterexample :
    (parseTradeBlocks c4Blocks).length = 1 ∧
    (parseTradeBlocks c4Blocks).map Trade.date_dt = [none] ∧
    (parseTradeBlocks c4Blocks).map Trade.ticker = [some "PEPE".data] := by
  refine ⟨?_, ?_, ?_⟩ <;> decide

/-- Witness for the amended C4 at a concrete input: a dated segment parses to
a trade whose `date_dt` is the parse of its date text. -/
def c4WitnessBlocks : List (List Str) := [["ETH (short)".data, "Дата: 05.06.2024".data]]

/-- The trade the witness block parses to. -/
def c4WitnessTrade : Trade := (parseTradeBlocks c4WitnessBlocks).headD {}

theorem parser_date_semantics_witness :
    c4WitnessTrade ∈ parseTradeBlocks c4WitnessBlocks ∧
    c4WitnessTrade.date_dt = c4WitnessTrade.date.bind dateParse ∧
    (c4WitnessTrade.date.isSome ↔ c4WitnessTrade.date_dt.isSome) :=
  ⟨by decide, parser_date_semantics c4WitnessBlocks c4WitnessTrade (by decide)⟩

/-- C8 (amended).  A parsed trade's `pnl_value` is `0.0` when the trade is in
progress; otherwise, when a pnl text is present, it is that text with every
`%` character removed (not only a trailing one) parsed as a float, with `0.0`
on parse failure; and when no pnl line is present the field is left unset
(downstream readers default it to `0`). -/
theorem parser_pnl_semantics (blocks : List (List Str)) :
    ∀ t ∈ parseTradeBlocks blocks,
      t.pnl_value =
        (if t.in_progress then some 0
         else t.pnl.map fun s => (pyFloat? (s.filter (· ≠ '%'))).getD 0) := by
  intro t ht
  unfold parseTradeBlocks at ht
  rcases List.mem_filterMap.mp ht with ⟨⟨i, blk⟩, _, hp⟩
  exact (parseTradeBlock_spec i blk t hp).2.2.1

/-- The single trade block used to refute C8 as stated: its pnl text `1%2`
has no trailing `%`, fails to parse as a float, yet does not yield `0.0`. -/
def c8Blocks : List (List Str) :=
  [["COIN (long)".data, "Чистое движение: 1%2".data, "Дата: 01.01.2025".data]]

/-- Counterexample to C8 as stated: for the completed trade with pnl text
`"1%2"`, stripping a trailing `%` leaves `"1%2"`, which does not parse as a
float, so the claim prescribes `pnl_value = 0.0`; the parser instead removes
every `%` (`str.replace('%', '')`) and stores `12.0`. -/
theorem parser_pnl_semantics_counterexample :
    (parseTradeBlocks c8Blocks).map (fun t => (t.in_progress, t.pnl, t.pnl_value)) =
      [(false, some "1%2".data, some 12)] ∧
    pyFloat? (stripTrailingPercent "1%2".data) = none ∧
    some (12 : ℚ) ≠ some (0 : ℚ) := by
  refine ⟨?_, ?_, ?_⟩ <;> decide

/-- Witness block for the amended C8: an in-progress trade. -/
def c8WitnessBlocks : List (List Str) :=
  [["SOL (long)".data, "Фиксации: в отработке".data, "Дата: 02.03.2024".data]]

/-- The trade the witness block parses to. -/
def c8WitnessTrade : Trade := (parseTradeBlocks c8WitnessBlocks).headD {}

theorem parser_pnl_semantics_witness :
    c8WitnessTrade ∈ parseTradeBlocks c8WitnessBlocks ∧
    c8WitnessTrade.pnl_value =
      (if c8WitnessTrade.in_progress then some 0
       else c8WitnessTrade.pnl.map fun s => (pyFloat? (s.filter (· ≠ '%'))).getD 0) :=
  ⟨by decide, parser_pnl_semantics c8WitnessBlocks c8WitnessTrade (by decide)⟩

/-- C3 (amended).  When parsing yields an empty summary and an empty trade
list, `update_stats_cache` aborts before any assignment: the cache is
untouched at every observable point (the state list collapses to the entry
state), and the coroutine returns `None` — the same value it returns after a
successful refresh — so the abort is reported in the log, not to the awaiting
caller. -/
theorem refresh_abort_preserves_cache (p : Summary × List Trade) (c : StatsCache)
    (h1 : p.1 = none) (h2 : p.2 = []) :
    updateStatsCacheStates p c = [c] ∧ (updateStatsCache p c).1 = c ∧
    (updateStatsCache p c).2 = () := by
  have habort : updateStatsCacheStates p c = [c] := by
    unfold updateStatsCacheStates
    rw [if_pos ⟨h1, h2⟩]
  refine ⟨habort, ?_, rfl⟩
  unfold updateStatsCache
  rw [habort]
  rfl

/-- A populated cache used by the refresh counterexamples: the final state of
a refresh over a one-trade ledger whose only trade is a loss. -/
def cePrevTrades : List Trade := [exTrade 0 1 (-2)]

/-- The cache left by a completed refresh of the previous ledger. -/
def cePrevCache : StatsCache := (updateStatsCache (none, cePrevTrades) {}).1

/-- The parse result of the new ledger: a single winning trade. -/
def ceNewParse : Summary × List Trade := (none, [exTrade 0 1 3])

/-- Counterexample to C3 as stated ("reports failure to the caller"): the
aborting run and a successful run return the identical value (Python `None`)
— the caller cannot observe the failure from the call — even though the two
runs differ in their effect on the cache. -/
theorem refresh_abort_counterexample :
    (updateStatsCache ((none : Summary), ([] : List Trade)) cePrevCache).2 =
      (updateStatsCache ceNewParse cePrevCache).2 ∧
    (updateStatsCache ((none : Summary), ([] : List Trade)) cePrevCache).1 = cePrevCache ∧
    (updateStatsCache ceNewParse cePrevCache).1 ≠ cePrevCache := by
  refine ⟨rfl, rfl, fun hc => ?_⟩
  have h1 : (updateStatsCache ceNewParse cePrevCache).1.trades = some [exTrade 0 1 3] := rfl
  have h2 : cePrevCache.trades = some [exTrade 0 1 (-2)] := rfl
  rw [hc, h2] at h1
  have := congrArg (fun o => (o.getD []).map Trade.pnl_value) h1
  simp [exTrade] at this
  norm_num at this

/-- Witness for the amended C3 at the concrete empty parse result against the
populated cache. -/
theorem refresh_abort_preserves_cache_witness :
    updateStatsCacheStates ((none : Summary), ([] : List Trade)) cePrevCache = [cePrevCache] ∧
    (updateStatsCache ((none : Summary), ([] : List Trade)) cePrevCache).1 = cePrevCache ∧
    (updateStatsCache ((none : Summary), ([] : List Trade)) cePrevCache).2 = () :=
  refresh_abort_preserves_cache ((none : Summary), ([] : List Trade)) cePrevCache rfl rfl

/-- C1 (amended).  A refresh replaces `summary` and `trades` together in one
synchronous step — every observable state carries either the previous pair or
the new pair, never a mixture of the two — and when the refresh completes the
whole cache holds values derived from the new parse (on the abort path it
holds exactly the previous values).  Streaks and the two simulation results,
however, are written at later suspension points, so intermediate states can
pair the new summary and trades with the previous ledger's streaks and
simulation results (see the counterexample). -/
theorem refresh_summary_trades_atomic (p : Summary × List Trade) (c : StatsCache) :
    (∀ s ∈ updateStatsCacheStates p c,
      (s.summary = c.summary ∧ s.trades = c.trades) ∨
      (s.summary = some p.1 ∧ s.trades = some p.2)) ∧
    (updateStatsCache p c).1 =
      (if p.1 = none ∧ p.2 = [] then c
       else
        { summary := some p.1, trades := some p.2, streaks := some (calculateStreaks p.2),
          sim_compound_results := some (calculateSimulation p.2 "compound" 1000 3 35),
          sim_simple_results := some (calculateSimulation p.2 "simple" 1000 3 35) }) := by
  by_cases h : p.1 = none ∧ p.2 = []
  · constructor
    · intro s hs
      unfold updateStatsCacheStates at hs
      rw [if_pos h] at hs
      simp only [List.mem_singleton] at hs
      subst hs
      exact Or.inl ⟨rfl, rfl⟩
    · unfold updateStatsCache updateStatsCacheStates
      rw [if_pos h, if_pos h]
      rfl
  · constructor
    · intro s hs
      unfold updateStatsCacheStates at hs
      rw [if_neg h] at hs
      simp only [List.mem_cons, List.not_mem_nil, or_false] at hs
      rcases hs with rfl | rfl | rfl | rfl | rfl
      · exact Or.inl ⟨rfl, rfl⟩
      all_goals exact Or.inr ⟨rfl, rfl⟩
    · unfold updateStatsCache updateStatsCacheStates
      rw [if_neg h, if_neg h]
      rfl

/-- The cache state observable while the refresh of the new ledger awaits
the streak computation: new summary and trades over the previous derived
fields. -/
def ceMixedState : StatsCache :=
  { cePrevCache with summary := some ceNewParse.1, trades := some ceNewParse.2 }

/-- Counterexample to C1 as stated: run a refresh of the new ledger (one
winning trade) against the cache left by the previous ledger (one losing
trade).  The state observable while the streak computation is awaited
already carries the new summary and trades but still the previous ledger's
streaks (and simulation results), and those streaks differ from the ones the
new ledger yields. -/
theorem refresh_not_atomic_counterexample :
    ∃ s ∈ updateStatsCacheStates ceNewParse cePrevCache,
      s.summary = some ceNewParse.1 ∧ s.trades = some ceNewParse.2 ∧
      s.streaks = some (calculateStreaks cePrevTrades) ∧
      s.sim_compound_results = cePrevCache.sim_compound_results ∧
      calculateStreaks cePrevTrades ≠ calculateStreaks ceNewParse.2 := by
  refine ⟨ceMixedState, ?_, rfl, rfl, rfl, rfl, by decide⟩
  exact List.mem_cons_of_mem _ (List.mem_cons_self _ _)

/-- Witness for the amended C1: the second observable state of the
counterexample refresh carries the new summary-trades pair (not a mixed
pair). -/
theorem refresh_summary_trades_atomic_witness :
    (ceMixedState.summary = cePrevCache.summary ∧
      ceMixedState.trades = cePrevCache.trades) ∨
    (ceMixedState.summary = some ceNewParse.1 ∧
      ceMixedState.trades = some ceNewParse.2) :=
  (refresh_summary_trades_atomic ceNewParse cePrevCache).1
    ceMixedState (List.mem_cons_of_mem _ (List.mem_cons_self _ _))

/-- Formatting a value with two decimals and re-reading it moves it by at
most half a hundredth, comfortably within the checker's 0.01 tolerance. -/
theorem abs_roundCent_sub_le (x : ℚ) : |roundCent x - x| ≤ 1 / 100 := by
  unfold roundCent
  have h := abs_sub_round (100 * x)
  rw [abs_sub_comm] at h
  have heq : ((round (100 * x) : ℤ) : ℚ) / 100 - x = ((round (100 * x) : ℤ) - 100 * x) / 100 := by
    ring
  rw [heq, abs_div]
  rw [show |(100 : ℚ)| = 100 by norm_num]
  rw [div_le_div_iff₀ (by norm_num) (by norm_num)]
  linarith

/-- C2 (amended).  For every nonempty trade list, checking the statistics
immediately after the automatic header rewrite finds no discrepancies,
provided the latest resolved trade date (when one exists) is a valid calendar
date whose year survives the two-digit round trip `yyMap (y % 100) = y`
(i.e. lies in 1969-2068).  The percentage fields always reconcile (two-decimal
formatting moves them by at most 0.005 < 0.01), the counts are recomputed
identically on both sides, and under the year condition the `dd.mm.yy`
last-update text re-parses to exactly the latest trade date. -/
theorem reconcile_after_rewrite (now : PyDate) (summary : Summary) (trades : List Trade)
    (h : WrittenHeader) (hne : trades ≠ [])
    (hrw : autoRewriteStatsHeader now summary trades = some h)
    (hdate : ∀ d, lastTradeDate trades = some d →
      validDate d = true ∧ yyMap (d.y % 100) = d.y) :
    cqCheckStats h trades = some [] := by
  unfold autoRewriteStatsHeader at hrw
  rw [if_neg hne] at hrw
  have hh := (Option.some.inj hrw).symm
  subst hh
  unfold cqCheckStats
  rw [if_neg hne]
  dsimp only
  rw [if_neg (not_not_intro (abs_roundCent_sub_le (totalPnlOf trades)))]
  rw [if_neg (not_not_intro (abs_roundCent_sub_le (winrateOf trades)))]
  rw [if_neg (not_not_intro (rfl : totalDeals trades = totalDeals trades))]
  rw [if_neg (not_not_intro (rfl : countSuccessful trades = countSuccessful trades))]
  rw [if_neg (not_not_intro (rfl : countLosing trades = countLosing trades))]
  rw [if_neg (not_not_intro (rfl : countBreakeven trades = countBreakeven trades))]
  rw [if_neg (not_not_intro (rfl : inProgressCount trades = inProgressCount trades))]
  rcases hlast : lastTradeDate trades with _ | d
  · simp
  · obtain ⟨hv, hy⟩ := hdate d hlast
    unfold strptimeOfWrittenDate
    dsimp only [Option.getD]
    rw [hy]
    rw [show (⟨d.y, d.m, d.d⟩ : PyDate) = d from rfl, hv]
    simp

/-- Witness trades for the amended C2: one completed winning trade dated
05.01.2025 (year 2025 survives the two-digit round trip). -/
def c2wTrades : List Trade := [exTrade 0 5 2]

/-- The header the rewrite produces for the witness trades. -/
def c2wHeader : WrittenHeader :=
  (autoRewriteStatsHeader ⟨2025, 1, 1⟩ none c2wTrades).getD
    ⟨0, 0, 0, 0, 0, 0, 0, [], 0, 0, 0⟩

theorem reconcile_after_rewrite_witness :
    c2wTrades ≠ [] ∧ cqCheckStats c2wHeader c2wTrades = some [] :=
  ⟨by decide,
    reconcile_after_rewrite ⟨2025, 1, 1⟩ none c2wTrades c2wHeader (by decide) rfl (by
      intro d hd
      rw [show lastTradeDate c2wTrades = some ⟨2025, 1, 5⟩ from rfl] at hd
      injection hd with h
      subst h
      exact ⟨by decide, by decide⟩)⟩

/-- The ledger segment used to refute C2 as stated: a trade dated in 2170
(a four-digit year the parser accepts but the two-digit header cannot
represent). -/
def c2xBlocks : List (List Str) :=
  [["COIN (long)".data, "Чистое движение: 5%".data, "Дата: 01.01.2170".data]]

/-- The trade that segment parses to. -/
def c2xTrade : Trade :=
  { in_progress := false, original_index := some 0, ticker := some "COIN".data,
    typ := some "long".data, pnl := some "5%".data, date := some "01.01.2170".data,
    date_dt := some ⟨2170, 1, 1⟩, pnl_value := some 5 }

/-- Counterexample to C2 as stated: for the trade list parsed from a ledger
whose only trade is dated 01.01.2170, rewriting the header and immediately
re-checking reports a last-update discrepancy — the header stores the date as
`01.01.70`, which `strptime("%d.%m.%y")` reads back as 1970, not 2170.  (All
other fields reconcile.) -/
theorem reconcile_after_rewrite_counterexample :
    (autoRewriteStatsHeader ⟨2025, 1, 1⟩ none (parseTradeBlocks c2xBlocks)).bind
      (fun h => cqCheckStats h (parseTradeBlocks c2xBlocks)) =
      some [StatField.lastUpdate] := by
  have hparse : parseTradeBlocks c2xBlocks = [c2xTrade] := by decide
  rw [hparse]
  have hcs : countSuccessful [c2xTrade] = 1 := by decide
  have hcl : countLosing [c2xTrade] = 0 := by decide
  have hpnl : totalPnlOf [c2xTrade] = 5 := by
    norm_num [totalPnlOf, completedNoProgress, Trade.pnlVal, c2xTrade]
  have hwin : winrateOf [c2xTrade] = 100 := by
    rw [winrateOf, hcs, hcl]; norm_num
  have hlast : lastTradeDate [c2xTrade] = some ⟨2170, 1, 1⟩ := by decide
  unfold autoRewriteStatsHeader
  rw [if_neg (by decide : ¬([c2xTrade] = []))]
  dsimp only [Option.bind, Option.getD, hlast]
  unfold cqCheckStats
  rw [if_neg (by decide : ¬([c2xTrade] = []))]
  rw [hlast]
  dsimp only [Option.getD]
  rw [hpnl, hwin]
  rw [if_neg (not_not_intro (abs_roundCent_sub_le (5 : ℚ)))]
  rw [if_neg (not_not_intro (abs_roundCent_sub_le (100 : ℚ)))]
  rw [if_neg (not_not_intro (rfl : totalDeals [c2xTrade] = totalDeals [c2xTrade]))]
  rw [if_neg (not_not_intro (rfl : countSuccessful [c2xTrade] = countSuccessful [c2xTrade]))]
  rw [if_neg (not_not_intro (rfl : countLosing [c2xTrade] = countLosing [c2xTrade]))]
  rw [if_neg (not_not_intro (rfl : countBreakeven [c2xTrade] = countBreakeven [c2xTrade]))]
  rw [if_neg (not_not_intro (rfl : inProgressCount [c2xTrade] = inProgressCount [c2xTrade]))]
  rw [show strptimeOfWrittenDate (⟨2170, 1, 1⟩ : PyDate).d (⟨2170, 1, 1⟩ : PyDate).m
      ((⟨2170, 1, 1⟩ : PyDate).y % 100) = some ⟨1970, 1, 1⟩ from by decide]
  simp
